import Mathlib

/-!
Shallow embedding of the Stargaze launchpad open-edition minter
(`contracts/minters/open-edition-minter/src/contract.rs`) and proofs of the
specification claims about it.

Addresses, denominations and opaque payloads are modelled as strings;
`Timestamp` (nanoseconds) and `Uint128`/`u128`/`u32` values as `Nat` (the
operations used by this contract are checked additions/subtractions and a
floor multiplication, so no wrap-around occurs and `Nat` with explicit
checks is faithful).  Contract storage is a single explicit `State` record
threaded through each entry point; an entry point returns
`Except ContractError (State × Response)` and the host commits the new
state only on `ok` (CosmWasm reverts all storage writes of a failed
message), which is made explicit by `committed` below.
-/

namespace OpenEdition

/-- Coin: an amount of a single denomination (cosmwasm `Coin`). -/
structure Coin where
  amount : Nat
  denom : String
deriving DecidableEq, Repr

/-- Errors of the contract, mirroring `crate::error::ContractError` together
with the library errors (`StdError`, payment errors, overflow) that the
contract propagates. -/
inductive ContractError where
  | Std (msg : String)
  | Payment
  | Overflow
  | Unauthorized (msg : String)
  | MintingHasNotYetEnded
  | BeforeMintStartTime
  | AfterMintEndTime
  | MaxPerAddressLimitExceeded
  | IncorrectPaymentAmount (paid required : Coin)
  | IncorrectFungibility
  | UpdatedMintPriceTooHigh (allowed updated : Nat)
  | InsufficientMintPrice (expected got : Nat)
  | AlreadyStarted
  | InvalidStartTime (a b : Nat)
  | InvalidEndTime (a b : Nat)
  | InvalidStartTradingTime (a b : Nat)
  | InvalidPerAddressLimit (max min got : Nat)
  | UpdateStatus
deriving DecidableEq, Repr

/-- Modelled from the spec: the price type of the sg2 package (`sg2::Token`),
a value that either resolves to exactly one fungible amount or is
non-fungible; probing `amount`/`denom` on a non-fungible value fails. -/
inductive Token where
  | fungible (c : Coin)
  | nonFungible (addr : String)
deriving DecidableEq, Repr

/-- Amount accessor of `sg2::Token`: fails unless the token is fungible. -/
def Token.amount : Token → Except ContractError Nat
  | .fungible c => .ok c.amount
  | .nonFungible _ => .error (.Std "expected a fungible token")

/-- Denomination accessor of `sg2::Token`: fails unless the token is fungible. -/
def Token.denom : Token → Except ContractError String
  | .fungible c => .ok c.denom
  | .nonFungible _ => .error (.Std "expected a fungible token")

/-- Modelled from the spec: `sg2::Token::new_fungible_token`. -/
def Token.new_fungible_token (amount : Nat) (denom : String) : Token :=
  .fungible ⟨amount, denom⟩

/-- Metadata descriptor tag (`open_edition_factory::types::NftMetadataType`). -/
inductive NftMetadataType where
  | OnChainMetadata
  | OffChainMetadata
deriving DecidableEq, Repr

/-- Modelled from the spec: the item metadata descriptor — a tagged variant
carrying an off-chain locator and/or an opaque on-chain payload. -/
structure NftData where
  nft_data_type : NftMetadataType
  extension : Option String
  token_uri : Option String
deriving DecidableEq, Repr

/-- Modelled from the spec: the mutable part of the minter configuration
(`crate::state::ConfigExtension`). -/
structure ConfigExtension where
  admin : String
  payment_address : Option String
  per_address_limit : Nat
  start_time : Nat
  end_time : Nat
  nft_data : NftData
deriving DecidableEq, Repr

/-- Modelled from the spec: the minter configuration (`crate::state::Config`). -/
structure Config where
  factory : String
  collection_code_id : Nat
  extension : ConfigExtension
  mint_price : Token
  allowed_burn_collections : Option (List String)
deriving DecidableEq, Repr

/-- Moderation status record (`sg4::Status`): three independent booleans. -/
structure Status where
  is_verified : Bool
  is_blocked : Bool
  is_explicit : Bool
deriving DecidableEq, Repr

/-- Default status: all three flags false. -/
def Status.default : Status := ⟨false, false, false⟩

/-- Extension of the factory parameters
(`open_edition_factory::state::ParamsExtension`), re-queried from the
Parameter Authority on each fee- or price-dependent operation. -/
structure ParamsExtension where
  max_per_address_limit : Nat
  airdrop_mint_price : Coin
  airdrop_mint_fee_bps : Nat
  dev_fee_address : String
deriving DecidableEq, Repr

/-- Factory parameters (`sg2::MinterParams`). -/
structure FactoryParams where
  mint_fee_bps : Nat
  min_mint_price : Token
  max_trading_offset_secs : Nat
  extension : ParamsExtension
deriving DecidableEq, Repr

/-- Incoming message metadata (cosmwasm `MessageInfo`). -/
structure MessageInfo where
  sender : String
  funds : List Coin
deriving DecidableEq, Repr

/-- Block environment (cosmwasm `Env`), reduced to the block time used by
this contract. -/
structure Env where
  block_time : Nat
deriving DecidableEq, Repr

/-- Payload of a `ReceiveNft` hook (cw721 `Cw721ReceiveMsg`). -/
structure Cw721ReceiveMsg where
  sender : String
  token_id : String
deriving DecidableEq, Repr

/-- Outbound instructions produced by the contract, reduced to the
constructors this contract emits. -/
inductive CosmosMsg where
  | bankSend (to_address : String) (amount : List Coin)
  | mintNft (collection token_id recipient : String)
      (onchain : Option String) (uri : Option String)
  | fairBurnFee (amount : Nat) (dev : String)
  | burnNft (collection token_id : String)
  | updateTradingTime (collection : String) (time : Option Nat)
deriving DecidableEq, Repr

/-- Response of an entry point: emitted messages and attributes. -/
structure Response where
  messages : List CosmosMsg
  attributes : List (String × String)
deriving DecidableEq, Repr

/-- Empty response (`Response::new()`). -/
def Response.empty : Response := ⟨[], []⟩

/-- Append one outbound message. -/
def Response.add_message (r : Response) (m : CosmosMsg) : Response :=
  { r with messages := r.messages ++ [m] }

/-- Append a batch of submessages. -/
def Response.add_submessages (r : Response) (ms : List CosmosMsg) : Response :=
  { r with messages := r.messages ++ ms }

/-- Append an attribute. -/
def Response.add_attribute (r : Response) (k v : String) : Response :=
  { r with attributes := r.attributes ++ [(k, v)] }

/-- Durable storage of the contract: `CONFIG`, `STATUS`, `SG721_ADDRESS`,
`TOTAL_MINT_COUNT`, the identifier counter (`TOKEN_INDEX`) and the
per-address mint count table (`MINTER_ADDRS`, an association list keyed by
address). -/
structure State where
  config : Config
  status : Status
  sg721_address : Option String
  total_mint_count : Nat
  token_index : Nat
  minter_addrs : List (String × Nat)
deriving DecidableEq, Repr

/-- Lookup in the per-address table (`MINTER_ADDRS.may_load`). -/
def lookupAddr : List (String × Nat) → String → Option Nat
  | [], _ => none
  | (a, v) :: rest, k => if a = k then some v else lookupAddr rest k

/-- Write-through save in the per-address table (`MINTER_ADDRS.save`). -/
def saveAddr : List (String × Nat) → String → Nat → List (String × Nat)
  | [], k, v => [(k, v)]
  | (a, w) :: rest, k, v =>
    if a = k then (k, v) :: rest else (a, w) :: saveAddr rest k v

/-- Library model (cw_utils `nonpayable`): fails when any funds are attached. -/
def nonpayable (info : MessageInfo) : Except ContractError Unit :=
  match info.funds with
  | [] => .ok ()
  | _ :: _ => .error .Payment

/-- Library model (cw_utils `may_pay`): zero for no attached funds, the
amount of the single attached coin when its denomination matches, an error
otherwise (several coins, a zero coin, or a foreign denomination). -/
def may_pay (info : MessageInfo) (denom : String) : Except ContractError Nat :=
  match info.funds with
  | [] => .ok 0
  | [c] =>
    if c.amount = 0 then .error .Payment
    else if c.denom = denom then .ok c.amount
    else .error .Payment
  | _ :: _ :: _ => .error .Payment

/-- Fixed-point denominator of cosmwasm `Decimal` (18 decimal places). -/
def DECIMAL_FRACTIONAL : Nat := 1000000000000000000

/-- A cosmwasm `Decimal`, stored as atomics over `DECIMAL_FRACTIONAL`. -/
structure Decimal where
  atomics : Nat
deriving DecidableEq, Repr

/-- Library model (sg_std `U64Ext::bps_to_decimal`): basis points as a
decimal, `Decimal::from_ratio(bps, 10000)`. -/
def bps_to_decimal (bps : Nat) : Decimal := ⟨bps * 100000000000000⟩

/-- Library model (cosmwasm `Uint128 * Decimal`): floor multiplication. -/
def mulDecimalFloor (a : Nat) (d : Decimal) : Nat :=
  a * d.atomics / DECIMAL_FRACTIONAL

/-- Library model (cosmwasm `Uint128::checked_sub`): fails on underflow. -/
def checked_sub (a b : Nat) : Except ContractError Nat :=
  if b ≤ a then .ok (a - b) else .error .Overflow

/-- Platform commit semantics: the state the host persists after running an
entry point — the new state on success, the unchanged pre-state on failure
(CosmWasm reverts every storage write of a failed message). -/
def committed (s : State) (r : Except ContractError (State × Response)) : State :=
  match r with
  | .ok (s', _) => s'
  | .error _ => s

/-- Decidable equality of entry-point results, used to evaluate the
embedding at concrete inputs. -/
instance instDecidableEqExcept {ε α : Type} [DecidableEq ε] [DecidableEq α] :
    DecidableEq (Except ε α)
  | .ok a, .ok b =>
    if h : a = b then .isTrue (by rw [h]) else .isFalse (by intro hc; injection hc; exact h (by assumption))
  | .ok a, .error f => .isFalse (by intro hc; exact Except.noConfusion hc)
  | .error e, .ok b => .isFalse (by intro hc; exact Except.noConfusion hc)
  | .error e, .error f =>
    if h : e = f then .isTrue (by rw [h]) else .isFalse (by intro hc; injection hc; exact h (by assumption))

/-- Per-address mint count of the message sender (`mint_count_per_addr`),
defaulting to zero when no entry exists. -/
def mint_count_per_addr (s : State) (sender : String) : Nat :=
  (lookupAddr s.minter_addrs sender).getD 0

/-- Effective price (`mint_price`): for the admin path the factory
airdrop amount paired with the configured denomination; otherwise the
configured amount and denomination. -/
def mint_price (s : State) (params : FactoryParams) (is_admin : Bool) :
    Except ContractError Coin :=
  let config := s.config
  match config.mint_price.amount with
  | .error e => .error e
  | .ok config_mint_price =>
    match config.mint_price.denom with
    | .error e => .error e
    | .ok config_denom =>
      if is_admin then
        .ok ⟨params.extension.airdrop_mint_price.amount, config_denom⟩
      else
        .ok ⟨config_mint_price, config_denom⟩

/-- Modelled from the spec: membership of the message sender in the optional
allow-list of exchange collections
(`burn_to_mint::sender_is_allowed_burn_collection`). -/
def sender_is_allowed_burn_collection (info : MessageInfo)
    (allowed_burn_collections : Option (List String)) : Bool :=
  match allowed_burn_collections with
  | none => false
  | some l => l.contains info.sender

/-- Payment step (`pay_mint_if_not_burn_collection`): an allow-listed
exchange collection pays nothing; anyone else must attach exactly the
effective price in the configured denomination. -/
def pay_mint_if_not_burn_collection (info : MessageInfo)
    (mint_price_with_discounts : Coin) (config_denom : String)
    (allowed_burn_collections : Option (List String)) :
    Except ContractError Nat :=
  match sender_is_allowed_burn_collection info allowed_burn_collections with
  | true => .ok 0
  | false =>
    match may_pay info config_denom with
    | .error e => .error e
    | .ok payment =>
      if payment ≠ mint_price_with_discounts.amount then
        .error (.IncorrectPaymentAmount ⟨payment, config_denom⟩
          mint_price_with_discounts)
      else .ok payment

/-- Modelled from the spec: sg1 `checked_fair_burn` — appends the
network-fee instruction for the given amount to the dev-fee recipient; a
zero-value instruction is suppressed, never sent as a no-op transfer. -/
def checked_fair_burn (fee : Nat) (developer : String) (res : Response) :
    Response :=
  if fee = 0 then res else res.add_message (.fairBurnFee fee developer)

/-- Fee branch (`fairburn_if_not_burn_collection`): no fee for an
allow-listed exchange collection; otherwise the network fee is the floor of
the price times the rate and the fee instruction is appended. -/
def fairburn_if_not_burn_collection (info : MessageInfo)
    (mint_price_with_discounts : Coin) (mint_fee : Decimal)
    (factory_params : FactoryParams)
    (allowed_burn_collections : Option (List String)) :
    Except ContractError (Response × Nat) :=
  let res := Response.empty
  match sender_is_allowed_burn_collection info allowed_burn_collections with
  | true => .ok (res, 0)
  | false =>
    let network_fee := mulDecimalFloor mint_price_with_discounts.amount mint_fee
    .ok (checked_fair_burn network_fee
      factory_params.extension.dev_fee_address res, network_fee)

/-- Seller payout branch (`_compute_seller_amount_if_not_contract_sender`):
the residual is the price minus the network fee (checked subtraction), and
the payout instruction is emitted only when the residual is non-zero, to
the payment address when set, else to the admin. -/
def _compute_seller_amount_if_not_contract_sender (info : MessageInfo)
    (res : Response) (mint_price_with_discounts : Coin) (network_fee : Nat)
    (config_extension : ConfigExtension)
    (allowed_burn_collections : Option (List String)) :
    Except ContractError (Response × Nat) :=
  match sender_is_allowed_burn_collection info allowed_burn_collections with
  | true => .ok (res, 0)
  | false =>
    match checked_sub mint_price_with_discounts.amount network_fee with
    | .error e => .error e
    | .ok amount =>
      let payment_address := config_extension.payment_address
      let seller := config_extension.admin
      if amount ≠ 0 then
        .ok (res.add_message (.bankSend (payment_address.getD seller)
          [⟨amount, mint_price_with_discounts.denom⟩]), amount)
      else .ok (res, amount)

/-- Modelled from the spec: the identifier allocator
(`crate::state::increment_token_index`) — atomically reads the current
counter, returns its value, and writes back the value plus one. -/
def increment_token_index (s : State) : Nat × State :=
  (s.token_index, { s with token_index := s.token_index + 1 })

/-- Modelled from the spec: the item-creation instruction builder
(`crate::helpers::mint_nft_msg`) — exactly one of the on-chain payload and
the off-chain locator is populated, per the descriptor type. -/
def mint_nft_msg (sg721_address token_id recipient : String)
    (onchain : Option String) (uri : Option String) :
    Except ContractError CosmosMsg :=
  .ok (.mintNft sg721_address token_id recipient onchain uri)

/-- Shared purchase pipeline (`_execute_mint`): resolves the effective
price, collects payment, computes the fee split, allocates an identifier,
emits the item-creation instruction, bumps the sender's per-address count
and the total count, and emits the seller payout. -/
def _execute_mint (s : State) (info : MessageInfo) (action : String)
    (is_admin : Bool) (recipient : Option String) (params : FactoryParams) :
    Except ContractError (State × Response) :=
  let config := s.config
  match s.sg721_address with
  | none => .error (.Std "sg721 address not found")
  | some sg721_address =>
    let recipient_addr := match recipient with
      | some some_recipient => some_recipient
      | none => info.sender
    match mint_price s params is_admin with
    | .error e => .error e
    | .ok mint_price_with_discounts =>
      match config.mint_price.denom with
      | .error _ => .error .IncorrectFungibility
      | .ok config_denom =>
        match pay_mint_if_not_burn_collection info mint_price_with_discounts
            config_denom config.allowed_burn_collections with
        | .error e => .error e
        | .ok _payment =>
          let factory_params := params
          let mint_fee := if is_admin then
              bps_to_decimal factory_params.extension.airdrop_mint_fee_bps
            else
              bps_to_decimal factory_params.mint_fee_bps
          match fairburn_if_not_burn_collection info mint_price_with_discounts
              mint_fee factory_params config.allowed_burn_collections with
          | .error e => .error e
          | .ok (res, network_fee) =>
            let idx := increment_token_index s
            let token_id := toString idx.1
            let s1 := idx.2
            match mint_nft_msg sg721_address token_id recipient_addr
                (match config.extension.nft_data.nft_data_type with
                 | .OnChainMetadata => config.extension.nft_data.extension
                 | .OffChainMetadata => none)
                (match config.extension.nft_data.nft_data_type with
                 | .OnChainMetadata => none
                 | .OffChainMetadata => config.extension.nft_data.token_uri) with
            | .error e => .error e
            | .ok msg =>
              let res := res.add_message msg
              let new_mint_count := mint_count_per_addr s1 info.sender + 1
              let s2 := { s1 with
                minter_addrs := saveAddr s1.minter_addrs info.sender new_mint_count }
              let s3 := { s2 with total_mint_count := s2.total_mint_count + 1 }
              match _compute_seller_amount_if_not_contract_sender info res
                  mint_price_with_discounts network_fee config.extension
                  config.allowed_burn_collections with
              | .error e => .error e
              | .ok (res2, seller_amount) =>
                .ok (s3,
                  (((((((res2.add_attribute "action" action).add_attribute
                    "sender" info.sender).add_attribute
                    "recipient" recipient_addr).add_attribute
                    "token_id" token_id).add_attribute
                    "network_fee" (toString network_fee)).add_attribute
                    "mint_price" (toString mint_price_with_discounts.amount)).add_attribute
                    "seller_amount" (toString seller_amount)))

/-- Ordinary self-mint (`execute_mint_sender`): window checks (inclusive
start, exclusive end), then the per-address cap, then the shared pipeline. -/
def execute_mint_sender (s : State) (env : Env) (info : MessageInfo)
    (params : FactoryParams) : Except ContractError (State × Response) :=
  let config := s.config
  if env.block_time < config.extension.start_time then
    .error .BeforeMintStartTime
  else if config.extension.end_time ≤ env.block_time then
    .error .AfterMintEndTime
  else if config.extension.per_address_limit ≤ mint_count_per_addr s info.sender then
    .error .MaxPerAddressLimitExceeded
  else
    _execute_mint s info "mint_sender" false none params

/-- Administrative mint to a third party (`execute_mint_to`): admin-only,
end-time check only, then the shared pipeline with the admin role. -/
def execute_mint_to (s : State) (env : Env) (info : MessageInfo)
    (params : FactoryParams) (recipient : String) :
    Except ContractError (State × Response) :=
  let config := s.config
  if info.sender ≠ config.extension.admin then
    .error (.Unauthorized "Sender is not an admin")
  else if config.extension.end_time ≤ env.block_time then
    .error .AfterMintEndTime
  else
    _execute_mint s info "mint_to" true (some recipient) params

/-- Purge (`execute_purge`): caller-agnostic, no funds, requires the block
time to be strictly after the stored end time, then deletes every
per-address mint count entry. -/
def execute_purge (s : State) (env : Env) (info : MessageInfo) :
    Except ContractError (State × Response) :=
  match nonpayable info with
  | .error e => .error e
  | .ok _ =>
    let end_time := s.config.extension.end_time
    if env.block_time ≤ end_time then
      .error .MintingHasNotYetEnded
    else
      .ok ({ s with minter_addrs := [] },
        (Response.empty.add_attribute "action" "purge").add_attribute
          "sender" info.sender)

/-- Price update (`execute_update_mint_price`): admin-only, payment-free,
rejected at or after the end time; once at or past the start time the new
price must be strictly below the stored price; always rejected below the
authority minimum price. -/
def execute_update_mint_price (s : State) (env : Env) (info : MessageInfo)
    (params : FactoryParams) (price : Nat) :
    Except ContractError (State × Response) :=
  match nonpayable info with
  | .error e => .error e
  | .ok _ =>
    let config := s.config
    if info.sender ≠ config.extension.admin then
      .error (.Unauthorized "Sender is not an admin")
    else if config.extension.end_time ≤ env.block_time then
      .error .AfterMintEndTime
    else
      match config.mint_price.amount with
      | .error e => .error e
      | .ok config_mint_price =>
        if config.extension.start_time ≤ env.block_time ∧ config_mint_price ≤ price then
          .error (.UpdatedMintPriceTooHigh config_mint_price price)
        else
          match params.min_mint_price.amount with
          | .error e => .error e
          | .ok min_mint_price =>
            if price < min_mint_price then
              .error (.InsufficientMintPrice min_mint_price price)
            else
              match config.mint_price.denom with
              | .error e => .error e
              | .ok d =>
                .ok ({ s with config :=
                    { config with mint_price := Token.new_fungible_token price d } },
                  ((Response.empty.add_attribute "action" "update_mint_price").add_attribute
                    "sender" info.sender).add_attribute "mint_price" (toString price))

/-- Start-time update (`execute_update_start_time`): admin-only,
payment-free; rejected once the sale has started, when the new start is in
the past, or when the new start is strictly after the stored end time. -/
def execute_update_start_time (s : State) (env : Env) (info : MessageInfo)
    (start_time : Nat) : Except ContractError (State × Response) :=
  match nonpayable info with
  | .error e => .error e
  | .ok _ =>
    let config := s.config
    if info.sender ≠ config.extension.admin then
      .error (.Unauthorized "Sender is not an admin")
    else if config.extension.start_time ≤ env.block_time then
      .error .AlreadyStarted
    else if start_time < env.block_time then
      .error (.InvalidStartTime start_time env.block_time)
    else if config.extension.end_time < start_time then
      .error (.InvalidStartTime config.extension.end_time start_time)
    else
      .ok ({ s with config := { config with extension :=
          { config.extension with start_time := start_time } } },
        ((Response.empty.add_attribute "action" "update_start_time").add_attribute
          "sender" info.sender).add_attribute "start_time" (toString start_time))

/-- End-time update (`execute_update_end_time`): admin-only, payment-free;
rejected once the sale has ended, when the new end is in the past, or when
the new end is strictly before the stored start time. -/
def execute_update_end_time (s : State) (env : Env) (info : MessageInfo)
    (end_time : Nat) : Except ContractError (State × Response) :=
  match nonpayable info with
  | .error e => .error e
  | .ok _ =>
    let config := s.config
    if info.sender ≠ config.extension.admin then
      .error (.Unauthorized "Sender is not an admin")
    else if config.extension.end_time ≤ env.block_time then
      .error .AlreadyStarted
    else if end_time < env.block_time then
      .error (.InvalidEndTime end_time env.block_time)
    else if end_time < config.extension.start_time then
      .error (.InvalidEndTime end_time config.extension.start_time)
    else
      .ok ({ s with config := { config with extension :=
          { config.extension with end_time := end_time } } },
        ((Response.empty.add_attribute "action" "update_end_time").add_attribute
          "sender" info.sender).add_attribute "end_time" (toString end_time))

/-- Timestamp shift by whole seconds (cosmwasm `Timestamp::plus_seconds`,
with timestamps in nanoseconds). -/
def plus_seconds (t secs : Nat) : Nat := t + secs * 1000000000

/-- Trading-time update (`execute_update_start_trading_time`): admin-only,
payment-free; forwards the value to the backing collection after checking
the authority-offset ceiling; does not mutate local state. -/
def execute_update_start_trading_time (s : State) (env : Env)
    (info : MessageInfo) (params : FactoryParams) (start_time : Option Nat) :
    Except ContractError (State × Response) :=
  match nonpayable info with
  | .error e => .error e
  | .ok _ =>
    let config := s.config
    match s.sg721_address with
    | none => .error (.Std "sg721 address not found")
    | some sg721_contract_addr =>
      if info.sender ≠ config.extension.admin then
        .error (.Unauthorized "Sender is not an admin")
      else
        let default_start_time_with_offset :=
          plus_seconds config.extension.start_time params.max_trading_offset_secs
        let checks : Except ContractError Unit :=
          match start_time with
          | none => .ok ()
          | some start_trading_time =>
            if start_trading_time < env.block_time then
              .error (.InvalidStartTradingTime env.block_time start_trading_time)
            else if default_start_time_with_offset < start_trading_time then
              .error (.InvalidStartTradingTime start_trading_time
                default_start_time_with_offset)
            else .ok ()
        match checks with
        | .error e => .error e
        | .ok _ =>
          .ok (s,
            (((Response.empty.add_attribute "action"
              "update_start_trading_time").add_attribute
              "sender" info.sender).add_message
              (.updateTradingTime sg721_contract_addr start_time)))

/-- Per-address limit update (`execute_update_per_address_limit`):
admin-only, payment-free; the new limit must be in `[1, authority_max]`. -/
def execute_update_per_address_limit (s : State) (info : MessageInfo)
    (params : FactoryParams) (per_address_limit : Nat) :
    Except ContractError (State × Response) :=
  match nonpayable info with
  | .error e => .error e
  | .ok _ =>
    let config := s.config
    if info.sender ≠ config.extension.admin then
      .error (.Unauthorized "Sender is not an admin")
    else if per_address_limit = 0 ∨
        params.extension.max_per_address_limit < per_address_limit then
      .error (.InvalidPerAddressLimit params.extension.max_per_address_limit
        1 per_address_limit)
    else
      .ok ({ s with config := { config with extension :=
          { config.extension with per_address_limit := per_address_limit } } },
        ((Response.empty.add_attribute "action" "update_per_address_limit").add_attribute
          "sender" info.sender).add_attribute "limit" (toString per_address_limit))

/-- Modelled from the spec: `burn_to_mint::generate_burn_msg` — produces
the instruction consuming the received foreign item on the sending
collection. -/
def generate_burn_msg (info : MessageInfo) (msg : Cw721ReceiveMsg) :
    Except ContractError Response :=
  .ok (Response.empty.add_message (.burnNft info.sender msg.token_id))

/-- Burn-to-mint entry (`burn_and_mint`): generates the burn instruction,
then runs an ordinary self-mint with the ambient message metadata — whose
sender is the foreign collection contract that forwarded the item. -/
def burn_and_mint (s : State) (env : Env) (info : MessageInfo)
    (params : FactoryParams) (msg : Cw721ReceiveMsg) :
    Except ContractError (State × Response) :=
  match generate_burn_msg info msg with
  | .error e => .error e
  | .ok res =>
    match execute_mint_sender s env info params with
    | .error e => .error e
    | .ok (s', mint_res) => .ok (s', mint_res.add_submessages res.messages)

/-- Status override (`update_status`): the source loads the status record
into a local variable and sets all three flags on that local copy, but the
modified record is never written back to storage. -/
def update_status (s : State) (is_verified is_blocked is_explicit : Bool) :
    Except ContractError (State × Response) :=
  let status := s.status
  let _updated : Status := { status with
    is_verified := is_verified
    is_blocked := is_blocked
    is_explicit := is_explicit }
  .ok (s, Response.empty.add_attribute "action" "sudo_update_status")

/-- Privileged (sudo) messages (`sg4::SudoMsg`). -/
inductive SudoMsg where
  | UpdateStatus (is_verified is_blocked is_explicit : Bool)
deriving DecidableEq, Repr

/-- Sudo entry point: dispatches the privileged status override, mapping
any internal failure to the generic `UpdateStatus` error. -/
def sudo_entry (s : State) (msg : SudoMsg) : Except ContractError (State × Response) :=
  match msg with
  | .UpdateStatus v b e =>
    match update_status s v b e with
    | .ok r => .ok r
    | .error _ => .error .UpdateStatus

/-- Executable messages of the contract (`crate::msg::ExecuteMsg`). -/
inductive ExecuteMsg where
  | Mint
  | Purge
  | UpdateMintPrice (price : Nat)
  | UpdateStartTime (time : Nat)
  | UpdateEndTime (time : Nat)
  | UpdateStartTradingTime (time : Option Nat)
  | UpdatePerAddressLimit (limit : Nat)
  | MintTo (recipient : String)
  | ReceiveNft (msg : Cw721ReceiveMsg)
deriving DecidableEq, Repr

/-- Execute entry point: dispatch on the message (`execute`). -/
def execute (s : State) (env : Env) (info : MessageInfo)
    (params : FactoryParams) : ExecuteMsg →
    Except ContractError (State × Response)
  | .Mint => execute_mint_sender s env info params
  | .Purge => execute_purge s env info
  | .UpdateMintPrice price => execute_update_mint_price s env info params price
  | .UpdateStartTime time => execute_update_start_time s env info time
  | .UpdateEndTime time => execute_update_end_time s env info time
  | .UpdateStartTradingTime time =>
    execute_update_start_trading_time s env info params time
  | .UpdatePerAddressLimit limit =>
    execute_update_per_address_limit s info params limit
  | .MintTo recipient => execute_mint_to s env info params recipient
  | .ReceiveNft msg => burn_and_mint s env info params msg

/-- Status query response (`sg4::StatusResponse`). -/
structure StatusResponse where
  status : Status
deriving DecidableEq, Repr

/-- Status query (`query_status`). -/
def query_status (s : State) : StatusResponse := ⟨s.status⟩

/-- Per-address mint count query response (`MintCountResponse`). -/
structure MintCountResponse where
  address : String
  count : Nat
deriving DecidableEq, Repr

/-- Per-address mint count query (`query_mint_count_per_address`). -/
def query_mint_count_per_address (s : State) (address : String) :
    MintCountResponse :=
  ⟨address, (lookupAddr s.minter_addrs address).getD 0⟩

/-- Total mint count query (`query_mint_count`). -/
def query_mint_count (s : State) : Nat := s.total_mint_count

/-- Whether an entry-point run succeeded. -/
def isOk : Except ContractError (State × Response) → Bool
  | .ok _ => true
  | .error _ => false

/-- The storage shape after a successful purchase: the identifier counter
and the total count advance by one and the sender's per-address count is
written back incremented. -/
def mintPost (s : State) (info : MessageInfo) : State :=
  { s with
    token_index := s.token_index + 1
    minter_addrs := saveAddr s.minter_addrs info.sender
      (mint_count_per_addr s info.sender + 1)
    total_mint_count := s.total_mint_count + 1 }

/-- Recipients of the item-creation instructions in a response. -/
def mintRecipients (resp : Response) : List String :=
  resp.messages.filterMap (fun m => match m with
    | .mintNft _ _ r _ _ => some r
    | _ => none)

/-- Example metadata descriptor used by the concrete instances below. -/
def exNftData : NftData := ⟨.OffChainMetadata, none, some "ipfs://base"⟩

/-- Example configuration: admin "alice", limit 1, sale window
`[1000, 2000)`, price 1000 ustars, one allow-listed exchange collection. -/
def exConfig : Config :=
  { factory := "factory"
    collection_code_id := 1
    extension :=
      { admin := "alice"
        payment_address := none
        per_address_limit := 1
        start_time := 1000
        end_time := 2000
        nft_data := exNftData }
    mint_price := .fungible ⟨1000, "ustars"⟩
    allowed_burn_collections := some ["burncoll"] }

/-- Example state: bound collection, fresh counters, empty table. -/
def exState : State :=
  { config := exConfig
    status := Status.default
    sg721_address := some "sg721"
    total_mint_count := 0
    token_index := 1
    minter_addrs := [] }

/-- Example factory parameters: 10% ordinary mint fee, 20% administrative
fee, administrative price of 500 carrying a foreign denomination. -/
def exParams : FactoryParams :=
  { mint_fee_bps := 1000
    min_mint_price := .fungible ⟨50, "ustars"⟩
    max_trading_offset_secs := 60
    extension :=
      { max_per_address_limit := 10
        airdrop_mint_price := ⟨500, "uatom"⟩
        airdrop_mint_fee_bps := 2000
        dev_fee_address := "dev" } }

/-- Example state whose per-address table already has "bob" at the cap. -/
def exStateBobAtCap : State := { exState with minter_addrs := [("bob", 1)] }

theorem lookupAddr_saveAddr_self (l : List (String × Nat)) (k : String) (v : Nat) :
    lookupAddr (saveAddr l k v) k = some v := by
  induction l with
  | nil => simp [saveAddr, lookupAddr]
  | cons hd tl ih =>
    obtain ⟨a, w⟩ := hd
    by_cases h : a = k
    · simp [saveAddr, h, lookupAddr]
    · simp [saveAddr, h, lookupAddr, ih]

theorem lookupAddr_saveAddr_other (l : List (String × Nat)) (k k' : String) (v : Nat)
    (h : k' ≠ k) : lookupAddr (saveAddr l k v) k' = lookupAddr l k' := by
  induction l with
  | nil => simp [saveAddr, lookupAddr, Ne.symm h]
  | cons hd tl ih =>
    obtain ⟨a, w⟩ := hd
    by_cases ha : a = k
    · subst ha
      simp [saveAddr, lookupAddr, Ne.symm h]
    · simp [saveAddr, ha, lookupAddr, ih]

theorem mulDecimalFloor_bps_le (a bps : Nat) (h : bps ≤ 10000) :
    mulDecimalFloor a (bps_to_decimal bps) ≤ a := by
  unfold mulDecimalFloor bps_to_decimal DECIMAL_FRACTIONAL
  have h2 : bps * 100000000000000 ≤ 1000000000000000000 := by
    calc bps * 100000000000000 ≤ 10000 * 100000000000000 :=
          Nat.mul_le_mul_right _ h
      _ = 1000000000000000000 := by norm_num
  calc a * (bps * 100000000000000) / 1000000000000000000
      ≤ a * 1000000000000000000 / 1000000000000000000 :=
        Nat.div_le_div_right (Nat.mul_le_mul_left a h2)
    _ = a := Nat.mul_div_cancel a (by norm_num)

theorem token_amount_error (t : Token) (e : ContractError) (h : t.amount = .error e) :
    ∃ m, e = .Std m := by
  cases t with
  | fungible c => simp [Token.amount] at h
  | nonFungible a =>
    simp [Token.amount] at h
    exact ⟨_, h.symm⟩

theorem token_denom_error (t : Token) (e : ContractError) (h : t.denom = .error e) :
    ∃ m, e = .Std m := by
  cases t with
  | fungible c => simp [Token.denom] at h
  | nonFungible a =>
    simp [Token.denom] at h
    exact ⟨_, h.symm⟩

theorem mint_price_error_is_std (s : State) (params : FactoryParams) (b : Bool)
    (e : ContractError) (h : mint_price s params b = .error e) : ∃ m, e = .Std m := by
  unfold mint_price at h
  cases hA : s.config.mint_price.amount with
  | error e' =>
    simp only [hA] at h
    injection h with h
    exact h ▸ token_amount_error _ _ hA
  | ok a =>
    cases hD : s.config.mint_price.denom with
    | error e' =>
      simp only [hA, hD] at h
      injection h with h
      exact h ▸ token_denom_error _ _ hD
    | ok d =>
      simp only [hA, hD] at h
      cases b <;> simp at h

theorem may_pay_error_is_payment (info : MessageInfo) (d : String)
    (e : ContractError) (h : may_pay info d = .error e) : e = .Payment := by
  unfold may_pay at h
  cases hf : info.funds with
  | nil => simp [hf] at h
  | cons c rest =>
    cases rest with
    | nil =>
      simp only [hf] at h
      by_cases hz : c.amount = 0
      · simp only [hz, if_pos rfl] at h
        exact (Except.error.injEq _ _).mp h.symm
      · rw [if_neg hz] at h
        by_cases hd : c.denom = d
        · rw [if_pos hd] at h
          simp at h
        · rw [if_neg hd] at h
          exact (Except.error.injEq _ _).mp h.symm
    | cons c2 rest2 =>
      simp only [hf] at h
      exact (Except.error.injEq _ _).mp h.symm

theorem pay_mint_error_shape (info : MessageInfo) (p : Coin) (cd : String)
    (ac : Option (List String)) (e : ContractError)
    (h : pay_mint_if_not_burn_collection info p cd ac = .error e) :
    e = .Payment ∨ ∃ x y, e = .IncorrectPaymentAmount x y := by
  unfold pay_mint_if_not_burn_collection at h
  cases hm : sender_is_allowed_burn_collection info ac with
  | true => simp [hm] at h
  | false =>
    simp only [hm] at h
    cases hp : may_pay info cd with
    | error e' =>
      simp only [hp] at h
      injection h with h
      exact Or.inl (h ▸ may_pay_error_is_payment _ _ _ hp)
    | ok pay =>
      simp only [hp] at h
      by_cases hne : pay ≠ p.amount
      · rw [if_pos hne] at h
        exact Or.inr ⟨_, _, ((Except.error.injEq _ _).mp h).symm⟩
      · rw [if_neg hne] at h
        simp at h

theorem checked_sub_error_is_overflow (a b : Nat) (e : ContractError)
    (h : checked_sub a b = .error e) : e = .Overflow := by
  unfold checked_sub at h
  by_cases hle : b ≤ a
  · rw [if_pos hle] at h
    simp at h
  · rw [if_neg hle] at h
    exact ((Except.error.injEq _ _).mp h).symm

theorem seller_error_is_overflow (info : MessageInfo) (res : Response) (p : Coin)
    (fee : Nat) (ext : ConfigExtension) (ac : Option (List String))
    (e : ContractError)
    (h : _compute_seller_amount_if_not_contract_sender info res p fee ext ac = .error e) :
    e = .Overflow := by
  unfold _compute_seller_amount_if_not_contract_sender at h
  cases hm : sender_is_allowed_burn_collection info ac with
  | true => simp [hm] at h
  | false =>
    simp only [hm] at h
    cases hs : checked_sub p.amount fee with
    | error e' =>
      simp only [hs] at h
      injection h with h
      exact h ▸ checked_sub_error_is_overflow _ _ _ hs
    | ok amount =>
      simp only [hs] at h
      by_cases hz : amount ≠ 0
      · rw [if_pos hz] at h
        simp at h
      · rw [if_neg hz] at h
        simp at h

set_option maxHeartbeats 1000000

theorem mint_price_ok_fungible (s : State) (params : FactoryParams) (b : Bool)
    (c : Coin) (h : s.config.mint_price = .fungible c) :
    mint_price s params b =
      .ok ⟨(if b then params.extension.airdrop_mint_price.amount else c.amount),
        c.denom⟩ := by
  unfold mint_price
  unfold_let
  rw [h]
  cases b <;> simp [Token.amount, Token.denom]

theorem _execute_mint_cases (s : State) (info : MessageInfo) (action : String)
    (b : Bool) (r : Option String) (params : FactoryParams) :
    (∃ e, _execute_mint s info action b r params = .error e
        ∧ e ≠ .BeforeMintStartTime ∧ e ≠ .AfterMintEndTime
        ∧ e ≠ .MaxPerAddressLimitExceeded)
    ∨ (∃ resp, _execute_mint s info action b r params = .ok (mintPost s info, resp)
        ∧ mintRecipients resp = [r.getD info.sender]) := by
  unfold _execute_mint
  unfold_let
  cases hsg : s.sg721_address with
  | none =>
    simp only [hsg]
    exact Or.inl ⟨_, rfl, by simp, by simp, by simp⟩
  | some sg =>
  simp only [hsg]
  cases hmp : mint_price s params b with
  | error e =>
    simp only [hmp]
    obtain ⟨m, rfl⟩ := mint_price_error_is_std _ _ _ _ hmp
    exact Or.inl ⟨_, rfl, by simp, by simp, by simp⟩
  | ok price =>
  simp only [hmp]
  cases hd : s.config.mint_price.denom with
  | error e2 =>
    simp only [hd]
    exact Or.inl ⟨_, rfl, by simp, by simp, by simp⟩
  | ok cd =>
  simp only [hd]
  simp only [pay_mint_if_not_burn_collection, fairburn_if_not_burn_collection,
    _compute_seller_amount_if_not_contract_sender, checked_fair_burn, checked_sub,
    mint_nft_msg]
  cases hbc : sender_is_allowed_burn_collection info s.config.allowed_burn_collections with
  | true =>
    simp only [hbc]
    refine Or.inr ⟨_, rfl, ?_⟩
    cases r <;>
      simp [mintRecipients, Response.add_message, Response.add_attribute,
        Response.empty, Option.getD]
  | false =>
    simp only [hbc]
    cases hmay : may_pay info cd with
    | error e3 =>
      simp only [hmay]
      have hpm := may_pay_error_is_payment _ _ _ hmay
      subst hpm
      exact Or.inl ⟨_, rfl, by simp, by simp, by simp⟩
    | ok pay =>
      simp only [hmay]
      by_cases hne : pay ≠ price.amount
      · simp only [if_pos hne]
        exact Or.inl ⟨_, rfl, by simp, by simp, by simp⟩
      · simp only [if_neg hne]
        generalize mulDecimalFloor price.amount
          (if b = true then bps_to_decimal params.extension.airdrop_mint_fee_bps
            else bps_to_decimal params.mint_fee_bps) = fee
        by_cases hle : fee ≤ price.amount
        · simp only [if_pos hle]
          by_cases hz : price.amount - fee ≠ 0
          · simp only [if_pos hz]
            refine Or.inr ⟨_, rfl, ?_⟩
            by_cases hf0 : fee = 0 <;> cases r <;>
              simp [hf0, mintRecipients, Response.add_message, Response.add_attribute,
                Response.empty, Option.getD]
          · simp only [if_neg hz]
            refine Or.inr ⟨_, rfl, ?_⟩
            by_cases hf0 : fee = 0 <;> cases r <;>
              simp [hf0, mintRecipients, Response.add_message, Response.add_attribute,
                Response.empty, Option.getD]
        · simp only [if_neg hle]
          exact Or.inl ⟨_, rfl, by simp, by simp, by simp⟩

theorem _execute_mint_ok_shape (s : State) (info : MessageInfo) (action : String)
    (b : Bool) (r : Option String) (params : FactoryParams) (s' : State)
    (resp : Response)
    (h : _execute_mint s info action b r params = .ok (s', resp)) :
    s' = mintPost s info ∧ mintRecipients resp = [r.getD info.sender] := by
  rcases _execute_mint_cases s info action b r params with
    ⟨e, he, -, -, -⟩ | ⟨resp2, hok, hrec⟩
  · rw [he] at h
    exact Except.noConfusion h
  · rw [hok] at h
    injection h with hp
    injection hp with h1 h2
    exact ⟨h1.symm, h2 ▸ hrec⟩

theorem _execute_mint_error_free (s : State) (info : MessageInfo) (action : String)
    (b : Bool) (r : Option String) (params : FactoryParams) (e : ContractError)
    (h : _execute_mint s info action b r params = .error e) :
    e ≠ .BeforeMintStartTime ∧ e ≠ .AfterMintEndTime
      ∧ e ≠ .MaxPerAddressLimitExceeded := by
  rcases _execute_mint_cases s info action b r params with
    ⟨e2, he, hn1, hn2, hn3⟩ | ⟨resp2, hok, -⟩
  · rw [he] at h
    injection h with h1
    exact h1 ▸ ⟨hn1, hn2, hn3⟩
  · rw [hok] at h
    exact Except.noConfusion h

theorem execute_mint_to_ok (s : State) (env : Env) (info : MessageInfo)
    (params : FactoryParams) (recipient a : String) (c : Coin) (p : Nat)
    (h_admin : info.sender = s.config.extension.admin)
    (h_time : env.block_time < s.config.extension.end_time)
    (h_sg : s.sg721_address = some a)
    (h_fung : s.config.mint_price = .fungible c)
    (h_pay : pay_mint_if_not_burn_collection info
      ⟨params.extension.airdrop_mint_price.amount, c.denom⟩ c.denom
      s.config.allowed_burn_collections = .ok p)
    (h_bps : params.extension.airdrop_mint_fee_bps ≤ 10000) :
    ∃ resp, execute_mint_to s env info params recipient =
      .ok (mintPost s info, resp) := by
  unfold execute_mint_to
  unfold_let
  rw [if_neg (show ¬ info.sender ≠ s.config.extension.admin by simp [h_admin]),
    if_neg (not_le.mpr h_time)]
  unfold _execute_mint
  unfold_let
  simp only [h_sg]
  have hmp := mint_price_ok_fungible s params true c h_fung
  simp only [if_true] at hmp
  simp only [hmp]
  have hdn : s.config.mint_price.denom = Except.ok c.denom := by
    rw [h_fung]
    rfl
  simp only [hdn]
  simp only [h_pay]
  simp only [fairburn_if_not_burn_collection, checked_fair_burn,
    _compute_seller_amount_if_not_contract_sender, checked_sub, mint_nft_msg]
  cases hbc : sender_is_allowed_burn_collection info s.config.allowed_burn_collections with
  | true =>
    simp only [hbc]
    exact ⟨_, rfl⟩
  | false =>
    simp only [hbc, if_true]
    have hle : mulDecimalFloor params.extension.airdrop_mint_price.amount
        (bps_to_decimal params.extension.airdrop_mint_fee_bps)
        ≤ params.extension.airdrop_mint_price.amount :=
      mulDecimalFloor_bps_le _ _ h_bps
    simp only [if_pos hle]
    by_cases hz : params.extension.airdrop_mint_price.amount -
        mulDecimalFloor params.extension.airdrop_mint_price.amount
          (bps_to_decimal params.extension.airdrop_mint_fee_bps) ≠ 0
    · simp only [if_pos hz]
      by_cases hf0 : mulDecimalFloor params.extension.airdrop_mint_price.amount
          (bps_to_decimal params.extension.airdrop_mint_fee_bps) = 0
      · simp only [if_pos hf0]
        exact ⟨_, rfl⟩
      · simp only [if_neg hf0]
        exact ⟨_, rfl⟩
    · simp only [if_neg hz]
      by_cases hf0 : mulDecimalFloor params.extension.airdrop_mint_price.amount
          (bps_to_decimal params.extension.airdrop_mint_fee_bps) = 0
      · simp only [if_pos hf0]
        exact ⟨_, rfl⟩
      · simp only [if_neg hf0]
        exact ⟨_, rfl⟩

theorem execute_mint_sender_ok_shape (s : State) (env : Env) (info : MessageInfo)
    (params : FactoryParams) (s' : State) (resp : Response)
    (h : execute_mint_sender s env info params = .ok (s', resp)) :
    s' = mintPost s info ∧ mintRecipients resp = [info.sender] := by
  unfold execute_mint_sender at h
  unfold_let at h
  by_cases h1 : env.block_time < s.config.extension.start_time
  · rw [if_pos h1] at h
    exact Except.noConfusion h
  · rw [if_neg h1] at h
    by_cases h2 : s.config.extension.end_time ≤ env.block_time
    · rw [if_pos h2] at h
      exact Except.noConfusion h
    · rw [if_neg h2] at h
      by_cases h3 : s.config.extension.per_address_limit ≤ mint_count_per_addr s info.sender
      · rw [if_pos h3] at h
        exact Except.noConfusion h
      · rw [if_neg h3] at h
        obtain ⟨hs, hr⟩ := _execute_mint_ok_shape _ _ _ _ _ _ _ _ h
        exact ⟨hs, by simpa using hr⟩

theorem execute_mint_sender_before_start (s : State) (env : Env)
    (info : MessageInfo) (params : FactoryParams)
    (h1 : env.block_time < s.config.extension.start_time) :
    execute_mint_sender s env info params = .error .BeforeMintStartTime := by
  unfold execute_mint_sender
  unfold_let
  rw [if_pos h1]

theorem execute_mint_sender_after_end (s : State) (env : Env)
    (info : MessageInfo) (params : FactoryParams)
    (hse : s.config.extension.start_time ≤ s.config.extension.end_time)
    (h2 : s.config.extension.end_time ≤ env.block_time) :
    execute_mint_sender s env info params = .error .AfterMintEndTime := by
  unfold execute_mint_sender
  unfold_let
  rw [if_neg (not_lt.mpr (le_trans hse h2)), if_pos h2]

theorem execute_mint_sender_cap_exceeded (s : State) (env : Env)
    (info : MessageInfo) (params : FactoryParams)
    (h1 : s.config.extension.start_time ≤ env.block_time)
    (h2 : env.block_time < s.config.extension.end_time)
    (h3 : s.config.extension.per_address_limit ≤ mint_count_per_addr s info.sender) :
    execute_mint_sender s env info params = .error .MaxPerAddressLimitExceeded := by
  unfold execute_mint_sender
  unfold_let
  rw [if_neg (not_lt.mpr h1), if_neg (not_le.mpr h2), if_pos h3]

theorem execute_mint_sender_window_free (s : State) (env : Env)
    (info : MessageInfo) (params : FactoryParams)
    (hlt : s.config.extension.start_time < s.config.extension.end_time)
    (hts : env.block_time = s.config.extension.start_time) :
    execute_mint_sender s env info params ≠ .error .BeforeMintStartTime
      ∧ execute_mint_sender s env info params ≠ .error .AfterMintEndTime := by
  have hrw : execute_mint_sender s env info params =
      (if s.config.extension.per_address_limit ≤ mint_count_per_addr s info.sender
        then .error .MaxPerAddressLimitExceeded
        else _execute_mint s info "mint_sender" false none params) := by
    unfold execute_mint_sender
    unfold_let
    rw [if_neg (by rw [hts]; exact lt_irrefl _),
      if_neg (not_le.mpr (by rw [hts]; exact hlt))]
  rw [hrw]
  by_cases h3 : s.config.extension.per_address_limit ≤ mint_count_per_addr s info.sender
  · rw [if_pos h3]
    exact ⟨by simp, by simp⟩
  · rw [if_neg h3]
    cases hres : _execute_mint s info "mint_sender" false none params with
    | error e =>
      obtain ⟨hn1, hn2, -⟩ := _execute_mint_error_free _ _ _ _ _ _ _ hres
      constructor
      · intro hc
        injection hc with hc
        exact hn1 hc
      · intro hc
        injection hc with hc
        exact hn2 hc
    | ok v =>
      exact ⟨by simp, by simp⟩

theorem execute_mint_to_after_end (s : State) (env : Env) (info : MessageInfo)
    (params : FactoryParams) (recipient : String)
    (ha : info.sender = s.config.extension.admin)
    (h2 : s.config.extension.end_time ≤ env.block_time) :
    execute_mint_to s env info params recipient = .error .AfterMintEndTime := by
  unfold execute_mint_to
  unfold_let
  rw [if_neg (show ¬ info.sender ≠ s.config.extension.admin by simp [ha]), if_pos h2]

theorem execute_mint_to_never_before_start (s : State) (env : Env)
    (info : MessageInfo) (params : FactoryParams) (recipient : String) :
    execute_mint_to s env info params recipient ≠ .error .BeforeMintStartTime := by
  unfold execute_mint_to
  unfold_let
  by_cases ha : info.sender ≠ s.config.extension.admin
  · rw [if_pos ha]
    simp
  · rw [if_neg ha]
    by_cases h2 : s.config.extension.end_time ≤ env.block_time
    · rw [if_pos h2]
      simp
    · rw [if_neg h2]
      cases hres : _execute_mint s info "mint_to" true (some recipient) params with
      | error e =>
        obtain ⟨hn1, -, -⟩ := _execute_mint_error_free _ _ _ _ _ _ _ hres
        intro hc
        injection hc with hc
        exact hn1 hc
      | ok v =>
        simp

theorem burn_and_mint_ok_shape (s : State) (env : Env) (info : MessageInfo)
    (params : FactoryParams) (msg : Cw721ReceiveMsg) (s' : State) (resp : Response)
    (h : burn_and_mint s env info params msg = .ok (s', resp)) :
    s' = mintPost s info ∧ mintRecipients resp = [info.sender] := by
  unfold burn_and_mint at h
  simp only [generate_burn_msg] at h
  cases hm : execute_mint_sender s env info params with
  | error e =>
    simp only [hm] at h
    exact Except.noConfusion h
  | ok v =>
    obtain ⟨s2, resp2⟩ := v
    simp only [hm] at h
    injection h with hp
    injection hp with h1 h2
    obtain ⟨hs, hr⟩ := execute_mint_sender_ok_shape _ _ _ _ _ _ hm
    refine ⟨h1 ▸ hs, ?_⟩
    rw [← h2]
    simpa [mintRecipients, Response.add_submessages, Response.add_message,
      Response.empty, List.filterMap_append] using hr

theorem burn_and_mint_cap_exceeded (s : State) (env : Env) (info : MessageInfo)
    (params : FactoryParams) (msg : Cw721ReceiveMsg)
    (h1 : s.config.extension.start_time ≤ env.block_time)
    (h2 : env.block_time < s.config.extension.end_time)
    (h3 : s.config.extension.per_address_limit ≤ mint_count_per_addr s info.sender) :
    burn_and_mint s env info params msg = .error .MaxPerAddressLimitExceeded := by
  unfold burn_and_mint
  simp only [generate_burn_msg,
    execute_mint_sender_cap_exceeded s env info params h1 h2 h3]

theorem execute_purge_ok_shape (s : State) (env : Env) (info : MessageInfo)
    (s' : State) (resp : Response)
    (h : execute_purge s env info = .ok (s', resp)) :
    s' = { s with minter_addrs := [] } := by
  unfold execute_purge at h
  unfold_let at h
  cases hn : nonpayable info with
  | error e =>
    simp only [hn] at h
    exact Except.noConfusion h
  | ok u =>
    simp only [hn] at h
    by_cases h1 : env.block_time ≤ s.config.extension.end_time
    · rw [if_pos h1] at h
      exact Except.noConfusion h
    · rw [if_neg h1] at h
      injection h with hp
      injection hp with h1' h2'
      exact h1'.symm

theorem execute_update_mint_price_ok_ext (s : State) (env : Env)
    (info : MessageInfo) (params : FactoryParams) (price : Nat) (s' : State)
    (resp : Response)
    (h : execute_update_mint_price s env info params price = .ok (s', resp)) :
    s'.config.extension = s.config.extension := by
  unfold execute_update_mint_price at h
  unfold_let at h
  cases hn : nonpayable info with
  | error e =>
    simp only [hn] at h
    exact Except.noConfusion h
  | ok u =>
    simp only [hn] at h
    by_cases ha : info.sender ≠ s.config.extension.admin
    · rw [if_pos ha] at h
      exact Except.noConfusion h
    · rw [if_neg ha] at h
      by_cases h2 : s.config.extension.end_time ≤ env.block_time
      · rw [if_pos h2] at h
        exact Except.noConfusion h
      · rw [if_neg h2] at h
        cases hA : s.config.mint_price.amount with
        | error e =>
          simp only [hA] at h
          exact Except.noConfusion h
        | ok cur =>
          simp only [hA] at h
          by_cases hc : s.config.extension.start_time ≤ env.block_time ∧ cur ≤ price
          · rw [if_pos hc] at h
            exact Except.noConfusion h
          · rw [if_neg hc] at h
            cases hMin : params.min_mint_price.amount with
            | error e =>
              simp only [hMin] at h
              exact Except.noConfusion h
            | ok minp =>
              simp only [hMin] at h
              by_cases hf : price < minp
              · rw [if_pos hf] at h
                exact Except.noConfusion h
              · rw [if_neg hf] at h
                cases hD : s.config.mint_price.denom with
                | error e =>
                  simp only [hD] at h
                  exact Except.noConfusion h
                | ok d =>
                  simp only [hD] at h
                  injection h with hp
                  injection hp with h1' h2'
                  rw [← h1']

theorem execute_update_start_time_ok_shape (s : State) (env : Env)
    (info : MessageInfo) (st : Nat) (s' : State) (resp : Response)
    (h : execute_update_start_time s env info st = .ok (s', resp)) :
    s'.config.extension.start_time = st
      ∧ s'.config.extension.end_time = s.config.extension.end_time
      ∧ st ≤ s.config.extension.end_time := by
  unfold execute_update_start_time at h
  unfold_let at h
  cases hn : nonpayable info with
  | error e =>
    simp only [hn] at h
    exact Except.noConfusion h
  | ok u =>
    simp only [hn] at h
    by_cases ha : info.sender ≠ s.config.extension.admin
    · rw [if_pos ha] at h
      exact Except.noConfusion h
    · rw [if_neg ha] at h
      by_cases h2 : s.config.extension.start_time ≤ env.block_time
      · rw [if_pos h2] at h
        exact Except.noConfusion h
      · rw [if_neg h2] at h
        by_cases h3 : st < env.block_time
        · rw [if_pos h3] at h
          exact Except.noConfusion h
        · rw [if_neg h3] at h
          by_cases h4 : s.config.extension.end_time < st
          · rw [if_pos h4] at h
            exact Except.noConfusion h
          · rw [if_neg h4] at h
            injection h with hp
            injection hp with h1' h2'
            rw [← h1']
            exact ⟨rfl, rfl, not_lt.mp h4⟩

theorem execute_update_start_time_rejects_inversion (s : State) (env : Env)
    (info : MessageInfo) (st : Nat)
    (hn : info.funds = [])
    (ha : info.sender = s.config.extension.admin)
    (h2 : env.block_time < s.config.extension.start_time)
    (h3 : env.block_time ≤ st)
    (h4 : s.config.extension.end_time < st) :
    execute_update_start_time s env info st =
      .error (.InvalidStartTime s.config.extension.end_time st) := by
  unfold execute_update_start_time
  unfold_let
  have hnp : nonpayable info = .ok () := by
    unfold nonpayable
    rw [hn]
  simp only [hnp]
  rw [if_neg (show ¬ info.sender ≠ s.config.extension.admin by simp [ha]),
    if_neg (not_le.mpr h2), if_neg (not_lt.mpr h3), if_pos h4]

theorem execute_update_end_time_ok_shape (s : State) (env : Env)
    (info : MessageInfo) (et : Nat) (s' : State) (resp : Response)
    (h : execute_update_end_time s env info et = .ok (s', resp)) :
    s'.config.extension.end_time = et
      ∧ s'.config.extension.start_time = s.config.extension.start_time
      ∧ s.config.extension.start_time ≤ et := by
  unfold execute_update_end_time at h
  unfold_let at h
  cases hn : nonpayable info with
  | error e =>
    simp only [hn] at h
    exact Except.noConfusion h
  | ok u =>
    simp only [hn] at h
    by_cases ha : info.sender ≠ s.config.extension.admin
    · rw [if_pos ha] at h
      exact Except.noConfusion h
    · rw [if_neg ha] at h
      by_cases h2 : s.config.extension.end_time ≤ env.block_time
      · rw [if_pos h2] at h
        exact Except.noConfusion h
      · rw [if_neg h2] at h
        by_cases h3 : et < env.block_time
        · rw [if_pos h3] at h
          exact Except.noConfusion h
        · rw [if_neg h3] at h
          by_cases h4 : et < s.config.extension.start_time
          · rw [if_pos h4] at h
            exact Except.noConfusion h
          · rw [if_neg h4] at h
            injection h with hp
            injection hp with h1' h2'
            rw [← h1']
            exact ⟨rfl, rfl, not_lt.mp h4⟩

theorem execute_update_end_time_rejects_inversion (s : State) (env : Env)
    (info : MessageInfo) (et : Nat)
    (hn : info.funds = [])
    (ha : info.sender = s.config.extension.admin)
    (h2 : env.block_time < s.config.extension.end_time)
    (h3 : env.block_time ≤ et)
    (h4 : et < s.config.extension.start_time) :
    execute_update_end_time s env info et =
      .error (.InvalidEndTime et s.config.extension.start_time) := by
  unfold execute_update_end_time
  unfold_let
  have hnp : nonpayable info = .ok () := by
    unfold nonpayable
    rw [hn]
  simp only [hnp]
  rw [if_neg (show ¬ info.sender ≠ s.config.extension.admin by simp [ha]),
    if_neg (not_le.mpr h2), if_neg (not_lt.mpr h3), if_pos h4]

theorem execute_update_start_trading_time_ok_shape (s : State) (env : Env)
    (info : MessageInfo) (params : FactoryParams) (t : Option Nat) (s' : State)
    (resp : Response)
    (h : execute_update_start_trading_time s env info params t = .ok (s', resp)) :
    s' = s := by
  unfold execute_update_start_trading_time at h
  unfold_let at h
  cases hn : nonpayable info with
  | error e =>
    simp only [hn] at h
    exact Except.noConfusion h
  | ok u =>
    simp only [hn] at h
    cases hsg : s.sg721_address with
    | none =>
      simp only [hsg] at h
      exact Except.noConfusion h
    | some sg =>
      simp only [hsg] at h
      by_cases ha : info.sender ≠ s.config.extension.admin
      · rw [if_pos ha] at h
        exact Except.noConfusion h
      · rw [if_neg ha] at h
        cases t with
        | none =>
          simp only [] at h
          injection h with hp
          injection hp with h1' h2'
          exact h1'.symm
        | some tt =>
          simp only [] at h
          by_cases hb1 : tt < env.block_time
          · rw [if_pos hb1] at h
            exact Except.noConfusion h
          · rw [if_neg hb1] at h
            by_cases hb2 : plus_seconds s.config.extension.start_time
                params.max_trading_offset_secs < tt
            · rw [if_pos hb2] at h
              exact Except.noConfusion h
            · rw [if_neg hb2] at h
              injection h with hp
              injection hp with h1' h2'
              exact h1'.symm

theorem execute_update_per_address_limit_ok_ext (s : State) (info : MessageInfo)
    (params : FactoryParams) (lim : Nat) (s' : State) (resp : Response)
    (h : execute_update_per_address_limit s info params lim = .ok (s', resp)) :
    s'.config.extension.start_time = s.config.extension.start_time
      ∧ s'.config.extension.end_time = s.config.extension.end_time := by
  unfold execute_update_per_address_limit at h
  unfold_let at h
  cases hn : nonpayable info with
  | error e =>
    simp only [hn] at h
    exact Except.noConfusion h
  | ok u =>
    simp only [hn] at h
    by_cases ha : info.sender ≠ s.config.extension.admin
    · rw [if_pos ha] at h
      exact Except.noConfusion h
    · rw [if_neg ha] at h
      by_cases h2 : lim = 0 ∨ params.extension.max_per_address_limit < lim
      · rw [if_pos h2] at h
        exact Except.noConfusion h
      · rw [if_neg h2] at h
        injection h with hp
        injection hp with h1' h2'
        rw [← h1']
        exact ⟨rfl, rfl⟩

theorem execute_mint_to_ok_shape (s : State) (env : Env) (info : MessageInfo)
    (params : FactoryParams) (recipient : String) (s' : State) (resp : Response)
    (h : execute_mint_to s env info params recipient = .ok (s', resp)) :
    s' = mintPost s info ∧ mintRecipients resp = [recipient] := by
  unfold execute_mint_to at h
  unfold_let at h
  by_cases ha : info.sender ≠ s.config.extension.admin
  · rw [if_pos ha] at h
    exact Except.noConfusion h
  · rw [if_neg ha] at h
    by_cases h2 : s.config.extension.end_time ≤ env.block_time
    · rw [if_pos h2] at h
      exact Except.noConfusion h
    · rw [if_neg h2] at h
      obtain ⟨hs, hr⟩ := _execute_mint_ok_shape _ _ _ _ _ _ _ _ h
      exact ⟨hs, by simpa using hr⟩

/-- C1: the source of `update_status` loads the Status record, sets the three
flags on the local copy, and never saves it back; so the privileged
UpdateStatus sudo call succeeds while the stored record — and the subsequent
Status query — still shows the old all-false flags instead of the three
supplied flags. -/
theorem update_status_not_persisted :
    sudo_entry exState (.UpdateStatus true true true) =
      .ok (exState, Response.empty.add_attribute "action" "sudo_update_status")
    ∧ (query_status (committed exState
        (sudo_entry exState (.UpdateStatus true true true)))).status
        = ⟨false, false, false⟩
    ∧ (⟨false, false, false⟩ : Status) ≠ ⟨true, true, true⟩ := by
  exact ⟨rfl, rfl, by decide⟩

/-- C3 counterexample: with the sale live (time 1500 in `[1000, 2000)`) and
the stored price 1000, an admin UpdateMintPrice to the equal price 1000 is
rejected with `UpdatedMintPriceTooHigh`, contradicting the claim that an
update to a price equal to the current price succeeds. -/
theorem update_mint_price_equal_rejected :
    execute_update_mint_price exState ⟨1500⟩ ⟨"alice", []⟩ exParams 1000
      = .error (.UpdatedMintPriceTooHigh 1000 1000) := by
  decide

/-- C3 (amended): for an admin, payment-free UpdateMintPrice before the end
time with the sale live (at-or-past start), the update fails with
`UpdatedMintPriceTooHigh` whenever the new price is at least the current
price (so equality fails too), fails with `InsufficientMintPrice` whenever
it is strictly lower but below the authority floor, and succeeds exactly
when it is strictly below the current price and at least the floor. -/
theorem update_mint_price_live_strict_decrease (s : State) (env : Env)
    (info : MessageInfo) (params : FactoryParams) (price : Nat)
    (c mc : Coin)
    (h_funds : info.funds = [])
    (h_admin : info.sender = s.config.extension.admin)
    (h_end : env.block_time < s.config.extension.end_time)
    (h_start : s.config.extension.start_time ≤ env.block_time)
    (h_fung : s.config.mint_price = .fungible c)
    (h_minfung : params.min_mint_price = .fungible mc) :
    (c.amount ≤ price →
      execute_update_mint_price s env info params price
        = .error (.UpdatedMintPriceTooHigh c.amount price))
    ∧ (price < c.amount → price < mc.amount →
      execute_update_mint_price s env info params price
        = .error (.InsufficientMintPrice mc.amount price))
    ∧ (price < c.amount → mc.amount ≤ price →
      execute_update_mint_price s env info params price
        = .ok ({ s with config :=
            { s.config with mint_price := Token.new_fungible_token price c.denom } },
          ((Response.empty.add_attribute "action" "update_mint_price").add_attribute
            "sender" info.sender).add_attribute "mint_price" (toString price))) := by
  have hnp : nonpayable info = .ok () := by
    unfold nonpayable
    rw [h_funds]
  have hA : s.config.mint_price.amount = .ok c.amount := by
    rw [h_fung]
    rfl
  have hD : s.config.mint_price.denom = .ok c.denom := by
    rw [h_fung]
    rfl
  have hM : params.min_mint_price.amount = .ok mc.amount := by
    rw [h_minfung]
    rfl
  have hadm : ¬ info.sender ≠ s.config.extension.admin := by simp [h_admin]
  refine ⟨?_, ?_, ?_⟩
  · intro hge
    unfold execute_update_mint_price
    unfold_let
    simp only [hnp]
    rw [if_neg hadm, if_neg (not_le.mpr h_end)]
    simp only [hA]
    rw [if_pos ⟨h_start, hge⟩]
  · intro hlt hfl
    unfold execute_update_mint_price
    unfold_let
    simp only [hnp]
    rw [if_neg hadm, if_neg (not_le.mpr h_end)]
    simp only [hA]
    rw [if_neg (fun hc => absurd hc.2 (not_le.mpr hlt))]
    simp only [hM]
    rw [if_pos hfl]
  · intro hlt hge
    unfold execute_update_mint_price
    unfold_let
    simp only [hnp]
    rw [if_neg hadm, if_neg (not_le.mpr h_end)]
    simp only [hA]
    rw [if_neg (fun hc => absurd hc.2 (not_le.mpr hlt))]
    simp only [hM]
    rw [if_neg (not_lt.mpr hge)]
    simp only [hD]

/-- C3 witness: at the concrete live state the update to the strictly lower
price 900 (above the floor 50) succeeds and stores 900. -/
theorem update_mint_price_live_strict_decrease_witness :
    execute_update_mint_price exState ⟨1500⟩ ⟨"alice", []⟩ exParams 900
      = .ok ({ exState with config :=
          { exState.config with mint_price := Token.new_fungible_token 900 "ustars" } },
        ((Response.empty.add_attribute "action" "update_mint_price").add_attribute
          "sender" "alice").add_attribute "mint_price" (toString 900)) :=
  (update_mint_price_live_strict_decrease exState ⟨1500⟩ ⟨"alice", []⟩ exParams 900
    ⟨1000, "ustars"⟩ ⟨50, "ustars"⟩ rfl rfl (by decide) (by decide) rfl rfl).2.2
    (by decide) (by decide)

/-- C4: purge requires the block time to be strictly after the stored end
time, so a purge at exactly `end_time` (2000) fails with
`MintingHasNotYetEnded` even though a mint at the same instant already fails
with `AfterMintEndTime` (the sale window is `[start_time, end_time)`); one
instant later purge succeeds, empties the per-address table, and a second
purge also succeeds on the already-empty table. -/
theorem purge_at_end_time_rejected :
    execute_purge exState ⟨2000⟩ ⟨"carol", []⟩ = .error .MintingHasNotYetEnded
    ∧ execute_mint_sender exState ⟨2000⟩ ⟨"bob", [⟨1000, "ustars"⟩]⟩ exParams
        = .error .AfterMintEndTime
    ∧ execute_purge exStateBobAtCap ⟨2001⟩ ⟨"carol", []⟩
        = .ok (exState,
            (Response.empty.add_attribute "action" "purge").add_attribute
              "sender" "carol")
    ∧ execute_purge exState ⟨2001⟩ ⟨"carol", []⟩
        = .ok (exState,
            (Response.empty.add_attribute "action" "purge").add_attribute
              "sender" "carol") := by
  decide

/-- C5: a purchase request (Mint, MintTo or burn-to-mint ReceiveNft) that
fails leaves the committed durable state — config, counters, identifier
counter and the per-address table — exactly as it was before the request. -/
theorem failed_purchase_state_unchanged (s : State) (env : Env)
    (info : MessageInfo) (params : FactoryParams) (msg : ExecuteMsg)
    (e : ContractError)
    (hp : msg = ExecuteMsg.Mint ∨ (∃ rc, msg = ExecuteMsg.MintTo rc)
        ∨ (∃ m, msg = ExecuteMsg.ReceiveNft m))
    (he : execute s env info params msg = .error e) :
    committed s (execute s env info params msg) = s := by
  rw [he]
  rfl

/-- C5 witness: a self-mint attempted before the start time fails and the
committed state is unchanged. -/
theorem failed_purchase_state_unchanged_witness :
    committed exState (execute exState ⟨500⟩ ⟨"bob", []⟩ exParams .Mint) = exState :=
  failed_purchase_state_unchanged exState ⟨500⟩ ⟨"bob", []⟩ exParams .Mint
    .BeforeMintStartTime (Or.inl rfl) (by decide)

/-- C10: on the privileged path, `mint_price` pairs the authority-supplied
airdrop price amount with the controller's configured denomination,
regardless of the denomination carried by the airdrop price value itself. -/
theorem mint_price_admin_uses_config_denom (s : State) (params : FactoryParams)
    (c : Coin) (h : s.config.mint_price = .fungible c) :
    mint_price s params true =
      .ok ⟨params.extension.airdrop_mint_price.amount, c.denom⟩ := by
  simpa using mint_price_ok_fungible s params true c h

/-- C10 witness: with a configured price in ustars and an airdrop price of
500 uatom, the admin price is 500 ustars — the airdrop denomination is
ignored. -/
theorem mint_price_admin_uses_config_denom_witness :
    mint_price exState exParams true = .ok ⟨500, "ustars"⟩
    ∧ exParams.extension.airdrop_mint_price.denom = "uatom"
    ∧ ("uatom" : String) ≠ "ustars" :=
  ⟨mint_price_admin_uses_config_denom exState exParams ⟨1000, "ustars"⟩ rfl,
    by decide, by decide⟩

/-- C2 counterexample: at the concrete state where the recipient "bob" is
already at the cap (limit 1, count 1), the admin MintTo succeeds and the
total count increments, but the recipient's per-address count does NOT
increment — the pipeline writes the incremented count under the sender
(the admin), not the recipient. -/
theorem mint_to_recipient_count_unchanged :
    isOk (execute_mint_to exStateBobAtCap ⟨1500⟩ ⟨"alice", [⟨500, "ustars"⟩]⟩
      exParams "bob") = true
    ∧ query_mint_count (committed exStateBobAtCap (execute_mint_to exStateBobAtCap
        ⟨1500⟩ ⟨"alice", [⟨500, "ustars"⟩]⟩ exParams "bob"))
      = query_mint_count exStateBobAtCap + 1
    ∧ ¬ (query_mint_count_per_address (committed exStateBobAtCap
          (execute_mint_to exStateBobAtCap ⟨1500⟩ ⟨"alice", [⟨500, "ustars"⟩]⟩
            exParams "bob")) "bob").count
        = (query_mint_count_per_address exStateBobAtCap "bob").count + 1 := by
  decide

/-- C2 (amended): an admin MintTo before the end time succeeds even when the
recipient's per-address count is already at or above the cap (the cap never
blocks this path), the total mint count increments by one, the SENDER's
(admin's) per-address count increments by one, and the recipient's count is
unchanged whenever the recipient differs from the sender. -/
theorem mint_to_bypasses_cap_counts_sender (s : State) (env : Env)
    (info : MessageInfo) (params : FactoryParams) (recipient a : String)
    (c : Coin) (p : Nat)
    (h_admin : info.sender = s.config.extension.admin)
    (h_time : env.block_time < s.config.extension.end_time)
    (h_cap : s.config.extension.per_address_limit ≤ mint_count_per_addr s recipient)
    (h_sg : s.sg721_address = some a)
    (h_fung : s.config.mint_price = .fungible c)
    (h_pay : pay_mint_if_not_burn_collection info
      ⟨params.extension.airdrop_mint_price.amount, c.denom⟩ c.denom
      s.config.allowed_burn_collections = .ok p)
    (h_bps : params.extension.airdrop_mint_fee_bps ≤ 10000) :
    ∃ resp, execute_mint_to s env info params recipient = .ok (mintPost s info, resp)
      ∧ (mintPost s info).total_mint_count = s.total_mint_count + 1
      ∧ mint_count_per_addr (mintPost s info) info.sender
          = mint_count_per_addr s info.sender + 1
      ∧ (recipient ≠ info.sender →
          mint_count_per_addr (mintPost s info) recipient
            = mint_count_per_addr s recipient) := by
  obtain ⟨resp, hok⟩ := execute_mint_to_ok s env info params recipient a c p
    h_admin h_time h_sg h_fung h_pay h_bps
  refine ⟨resp, hok, rfl, ?_, ?_⟩
  · simp [mintPost, mint_count_per_addr, lookupAddr_saveAddr_self]
  · intro hne
    simp [mintPost, mint_count_per_addr, lookupAddr_saveAddr_other _ _ _ _ hne]

/-- C2 witness: the amended theorem applied at the cap-exhausted concrete
state — "bob" is at the cap yet the admin MintTo succeeds, with the
successor state crediting "alice" (the sender) and leaving "bob" at 1. -/
theorem mint_to_bypasses_cap_counts_sender_witness :
    isOk (execute_mint_to exStateBobAtCap ⟨1500⟩ ⟨"alice", [⟨500, "ustars"⟩]⟩
        exParams "bob") = true
    ∧ mint_count_per_addr (mintPost exStateBobAtCap ⟨"alice", [⟨500, "ustars"⟩]⟩)
        "alice" = mint_count_per_addr exStateBobAtCap "alice" + 1
    ∧ mint_count_per_addr (mintPost exStateBobAtCap ⟨"alice", [⟨500, "ustars"⟩]⟩)
        "bob" = mint_count_per_addr exStateBobAtCap "bob" := by
  obtain ⟨resp, hok, -, hsender, hrec⟩ :=
    mint_to_bypasses_cap_counts_sender exStateBobAtCap ⟨1500⟩
      ⟨"alice", [⟨500, "ustars"⟩]⟩ exParams "bob" "sg721" ⟨1000, "ustars"⟩ 500
      rfl (by decide) (by decide) rfl rfl (by decide) (by decide)
  refine ⟨?_, hsender, hrec (by decide)⟩
  rw [hok]
  rfl

/-- C6: a self-mint strictly before `start_time` fails with the before-start
error; at or after `end_time` (with a well-formed window) it fails with the
after-end error — in particular at exactly `end_time`; at exactly
`start_time` (with a non-empty window) it passes both window checks; an
admin MintTo never fails with the before-start error (the lower bound is
skipped) but still fails with the after-end error at or after `end_time`. -/
theorem mint_window_boundaries :
    (∀ (s : State) (env : Env) (info : MessageInfo) (params : FactoryParams),
      env.block_time < s.config.extension.start_time →
      execute_mint_sender s env info params = .error .BeforeMintStartTime)
    ∧ (∀ (s : State) (env : Env) (info : MessageInfo) (params : FactoryParams),
      s.config.extension.start_time ≤ s.config.extension.end_time →
      s.config.extension.end_time ≤ env.block_time →
      execute_mint_sender s env info params = .error .AfterMintEndTime)
    ∧ (∀ (s : State) (env : Env) (info : MessageInfo) (params : FactoryParams),
      s.config.extension.start_time < s.config.extension.end_time →
      env.block_time = s.config.extension.start_time →
      execute_mint_sender s env info params ≠ .error .BeforeMintStartTime
        ∧ execute_mint_sender s env info params ≠ .error .AfterMintEndTime)
    ∧ (∀ (s : State) (env : Env) (info : MessageInfo) (params : FactoryParams)
        (recipient : String),
      execute_mint_to s env info params recipient ≠ .error .BeforeMintStartTime)
    ∧ (∀ (s : State) (env : Env) (info : MessageInfo) (params : FactoryParams)
        (recipient : String),
      info.sender = s.config.extension.admin →
      s.config.extension.end_time ≤ env.block_time →
      execute_mint_to s env info params recipient = .error .AfterMintEndTime) :=
  ⟨fun s env info params h1 =>
      execute_mint_sender_before_start s env info params h1,
    fun s env info params hse h2 =>
      execute_mint_sender_after_end s env info params hse h2,
    fun s env info params hlt hts =>
      execute_mint_sender_window_free s env info params hlt hts,
    fun s env info params recipient =>
      execute_mint_to_never_before_start s env info params recipient,
    fun s env info params recipient ha h2 =>
      execute_mint_to_after_end s env info params recipient ha h2⟩

/-- C6 witness: the window boundary theorem applied at concrete instants of
the `[1000, 2000)` window — 999 too early, 2000 already ended, 1000 passes
the window checks, MintTo at 500 not before-start, MintTo at 2000 ended. -/
theorem mint_window_boundaries_witness :
    execute_mint_sender exState ⟨999⟩ ⟨"bob", []⟩ exParams
        = .error .BeforeMintStartTime
    ∧ execute_mint_sender exState ⟨2000⟩ ⟨"bob", []⟩ exParams
        = .error .AfterMintEndTime
    ∧ (execute_mint_sender exState ⟨1000⟩ ⟨"bob", [⟨1000, "ustars"⟩]⟩ exParams
          ≠ .error .BeforeMintStartTime
        ∧ execute_mint_sender exState ⟨1000⟩ ⟨"bob", [⟨1000, "ustars"⟩]⟩ exParams
          ≠ .error .AfterMintEndTime)
    ∧ execute_mint_to exState ⟨500⟩ ⟨"alice", [⟨500, "ustars"⟩]⟩ exParams "bob"
        ≠ .error .BeforeMintStartTime
    ∧ execute_mint_to exState ⟨2000⟩ ⟨"alice", []⟩ exParams "bob"
        = .error .AfterMintEndTime :=
  ⟨mint_window_boundaries.1 exState ⟨999⟩ ⟨"bob", []⟩ exParams (by decide),
    mint_window_boundaries.2.1 exState ⟨2000⟩ ⟨"bob", []⟩ exParams
      (by decide) (by decide),
    mint_window_boundaries.2.2.1 exState ⟨1000⟩ ⟨"bob", [⟨1000, "ustars"⟩]⟩
      exParams (by decide) (by decide),
    mint_window_boundaries.2.2.2.1 exState ⟨500⟩ ⟨"alice", [⟨500, "ustars"⟩]⟩
      exParams "bob",
    mint_window_boundaries.2.2.2.2 exState ⟨2000⟩ ⟨"alice", []⟩ exParams "bob"
      rfl (by decide)⟩

/-- C7: for a non-exchange purchase the network fee is the floor
multiplication of the price by the fee rate and is emitted only when
non-zero; the seller residual is the price minus the network fee, failing
with an arithmetic underflow when the fee exceeds the price, and the seller
payout instruction is emitted only when the residual is non-zero; at price
1000 with the 10% ordinary rate the pipeline emits a fee instruction for 100
and a seller instruction for 900, and on the admin path at price 500 with
the 20% administrative rate it emits 100 and 400. -/
theorem fee_split_and_seller_payout :
    (∀ (info : MessageInfo) (price : Coin) (rate : Decimal)
        (params : FactoryParams) (allowed : Option (List String)),
      sender_is_allowed_burn_collection info allowed = false →
      fairburn_if_not_burn_collection info price rate params allowed =
        .ok (checked_fair_burn (mulDecimalFloor price.amount rate)
          params.extension.dev_fee_address Response.empty,
          mulDecimalFloor price.amount rate))
    ∧ (∀ (fee : Nat) (dev : String) (res : Response),
      (checked_fair_burn fee dev res).messages =
        res.messages ++ (if fee = 0 then [] else [.fairBurnFee fee dev]))
    ∧ (∀ (info : MessageInfo) (res : Response) (price : Coin) (fee : Nat)
        (ext : ConfigExtension) (allowed : Option (List String)),
      sender_is_allowed_burn_collection info allowed = false →
      (price.amount < fee →
        _compute_seller_amount_if_not_contract_sender info res price fee ext allowed
          = .error .Overflow)
      ∧ (fee ≤ price.amount →
        ∃ res2,
          _compute_seller_amount_if_not_contract_sender info res price fee ext allowed
            = .ok (res2, price.amount - fee)
          ∧ res2.messages = res.messages ++
              (if price.amount - fee = 0 then []
               else [.bankSend (ext.payment_address.getD ext.admin)
                 [⟨price.amount - fee, price.denom⟩]])))
    ∧ (∃ s' resp, execute_mint_sender exState ⟨1000⟩
          ⟨"bob", [⟨1000, "ustars"⟩]⟩ exParams = .ok (s', resp)
        ∧ resp.messages = [.fairBurnFee 100 "dev",
            .mintNft "sg721" "1" "bob" none (some "ipfs://base"),
            .bankSend "alice" [⟨900, "ustars"⟩]])
    ∧ (∃ s' resp, execute_mint_to exState ⟨500⟩ ⟨"alice", [⟨500, "ustars"⟩]⟩
          exParams "bob" = .ok (s', resp)
        ∧ resp.messages = [.fairBurnFee 100 "dev",
            .mintNft "sg721" "1" "bob" none (some "ipfs://base"),
            .bankSend "alice" [⟨400, "ustars"⟩]]) := by
  refine ⟨?_, ?_, ?_, ⟨_, _, rfl, rfl⟩, ⟨_, _, rfl, rfl⟩⟩
  · intro info price rate params allowed hm
    unfold fairburn_if_not_burn_collection
    unfold_let
    simp only [hm]
  · intro fee dev res
    unfold checked_fair_burn
    by_cases hf : fee = 0
    · simp [hf]
    · simp [hf, Response.add_message]
  · intro info res price fee ext allowed hm
    constructor
    · intro hlt
      unfold _compute_seller_amount_if_not_contract_sender checked_sub
      unfold_let
      simp only [hm]
      rw [if_neg (not_le.mpr hlt)]
    · intro hle
      unfold _compute_seller_amount_if_not_contract_sender checked_sub
      unfold_let
      simp only [hm]
      rw [if_pos hle]
      by_cases hz : price.amount - fee = 0
      · exact ⟨res, by simp [hz], by simp [hz]⟩
      · exact ⟨res.add_message (.bankSend (ext.payment_address.getD ext.admin)
          [⟨price.amount - fee, price.denom⟩]), by simp [hz],
          by simp [Response.add_message, hz]⟩

/-- C7 witness: the fee-split theorem applied concretely — a non-member
sender, a price of 1000 and the 10% rate give a fee of 100, and the seller
step on a residual of 900 emits a single payout instruction for 900. -/
theorem fee_split_and_seller_payout_witness :
    fairburn_if_not_burn_collection ⟨"bob", [⟨1000, "ustars"⟩]⟩ ⟨1000, "ustars"⟩
        (bps_to_decimal 1000) exParams (some ["burncoll"]) =
      .ok (checked_fair_burn (mulDecimalFloor 1000 (bps_to_decimal 1000))
        "dev" Response.empty, mulDecimalFloor 1000 (bps_to_decimal 1000))
    ∧ (⟨"bob", [⟨1000, "ustars"⟩]⟩ : MessageInfo).sender = "bob"
    ∧ mulDecimalFloor 1000 (bps_to_decimal 1000) = 100 := by
  refine ⟨?_, rfl, by decide⟩
  have := fee_split_and_seller_payout.1 ⟨"bob", [⟨1000, "ustars"⟩]⟩
    ⟨1000, "ustars"⟩ (bps_to_decimal 1000) exParams (some ["burncoll"]) (by decide)
  simpa using this

/-- C8: every successful execute message preserves the invariant
`start_time ≤ end_time`; moreover UpdateStartTime rejects a new start
strictly after the stored end time with `InvalidStartTime`, and
UpdateEndTime rejects a new end strictly before the stored start time with
`InvalidEndTime`. -/
theorem window_invariant_preserved :
    (∀ (s : State) (env : Env) (info : MessageInfo) (params : FactoryParams)
        (msg : ExecuteMsg) (s' : State) (resp : Response),
      s.config.extension.start_time ≤ s.config.extension.end_time →
      execute s env info params msg = .ok (s', resp) →
      s'.config.extension.start_time ≤ s'.config.extension.end_time)
    ∧ (∀ (s : State) (env : Env) (info : MessageInfo) (st : Nat),
      info.funds = [] →
      info.sender = s.config.extension.admin →
      env.block_time < s.config.extension.start_time →
      env.block_time ≤ st →
      s.config.extension.end_time < st →
      execute_update_start_time s env info st =
        .error (.InvalidStartTime s.config.extension.end_time st))
    ∧ (∀ (s : State) (env : Env) (info : MessageInfo) (et : Nat),
      info.funds = [] →
      info.sender = s.config.extension.admin →
      env.block_time < s.config.extension.end_time →
      env.block_time ≤ et →
      et < s.config.extension.start_time →
      execute_update_end_time s env info et =
        .error (.InvalidEndTime et s.config.extension.start_time)) := by
  refine ⟨?_, ?_, ?_⟩
  · intro s env info params msg s' resp hinv hok
    cases msg with
    | Mint =>
      simp only [execute] at hok
      obtain ⟨hs, -⟩ := execute_mint_sender_ok_shape _ _ _ _ _ _ hok
      rw [hs]
      exact hinv
    | Purge =>
      simp only [execute] at hok
      have hs := execute_purge_ok_shape _ _ _ _ _ hok
      rw [hs]
      exact hinv
    | UpdateMintPrice price =>
      simp only [execute] at hok
      have hs := execute_update_mint_price_ok_ext _ _ _ _ _ _ _ hok
      rw [hs]
      exact hinv
    | UpdateStartTime st =>
      simp only [execute] at hok
      obtain ⟨h1, h2, h3⟩ := execute_update_start_time_ok_shape _ _ _ _ _ _ hok
      rw [h1, h2]
      exact h3
    | UpdateEndTime et =>
      simp only [execute] at hok
      obtain ⟨h1, h2, h3⟩ := execute_update_end_time_ok_shape _ _ _ _ _ _ hok
      rw [h1, h2]
      exact h3
    | UpdateStartTradingTime t =>
      simp only [execute] at hok
      have hs := execute_update_start_trading_time_ok_shape _ _ _ _ _ _ _ hok
      rw [hs]
      exact hinv
    | UpdatePerAddressLimit lim =>
      simp only [execute] at hok
      obtain ⟨h1, h2⟩ := execute_update_per_address_limit_ok_ext _ _ _ _ _ _ hok
      rw [h1, h2]
      exact hinv
    | MintTo rc =>
      simp only [execute] at hok
      obtain ⟨hs, -⟩ := execute_mint_to_ok_shape _ _ _ _ _ _ _ hok
      rw [hs]
      exact hinv
    | ReceiveNft m =>
      simp only [execute] at hok
      obtain ⟨hs, -⟩ := burn_and_mint_ok_shape _ _ _ _ _ _ _ hok
      rw [hs]
      exact hinv
  · intro s env info st hn ha h2 h3 h4
    exact execute_update_start_time_rejects_inversion s env info st hn ha h2 h3 h4
  · intro s env info et hn ha h2 h3 h4
    exact execute_update_end_time_rejects_inversion s env info et hn ha h2 h3 h4

/-- C8 witness: the invariant theorem applied concretely — a successful
end-time update to 1800 keeps `start_time ≤ end_time`, a start update to
2500 (past the stored end 2000) and an end update to 800 (before the stored
start 1000) are rejected. -/
theorem window_invariant_preserved_witness :
    ({ exState with config := { exConfig with extension :=
        { exConfig.extension with end_time := 1800 } } } :
          State).config.extension.start_time
      ≤ ({ exState with config := { exConfig with extension :=
        { exConfig.extension with end_time := 1800 } } } :
          State).config.extension.end_time
    ∧ execute_update_start_time exState ⟨500⟩ ⟨"alice", []⟩ 2500
        = .error (.InvalidStartTime 2000 2500)
    ∧ execute_update_end_time exState ⟨500⟩ ⟨"alice", []⟩ 800
        = .error (.InvalidEndTime 800 1000) :=
  ⟨window_invariant_preserved.1 exState ⟨500⟩ ⟨"alice", []⟩ exParams
      (.UpdateEndTime 1800)
      { exState with config := { exConfig with extension :=
          { exConfig.extension with end_time := 1800 } } }
      (((Response.empty.add_attribute "action" "update_end_time").add_attribute
        "sender" "alice").add_attribute "end_time" (toString 1800))
      (by decide) (by decide),
    window_invariant_preserved.2.1 exState ⟨500⟩ ⟨"alice", []⟩ 2500
      rfl rfl (by decide) (by decide) (by decide),
    window_invariant_preserved.2.2 exState ⟨500⟩ ⟨"alice", []⟩ 800
      rfl rfl (by decide) (by decide) (by decide)⟩

/-- C9: in a burn-to-mint request the ambient sender is the foreign
collection contract; the per-address cap is checked against that sender
(failing `MaxPerAddressLimitExceeded` when the collection's own count is at
the cap inside the window), and on success the minted item's recipient and
the address credited in the per-address table are both the sender — not the
original owner named inside the ReceiveNft payload. -/
theorem burn_to_mint_credits_collection :
    (∀ (s : State) (env : Env) (info : MessageInfo) (params : FactoryParams)
        (msg : Cw721ReceiveMsg),
      s.config.extension.start_time ≤ env.block_time →
      env.block_time < s.config.extension.end_time →
      s.config.extension.per_address_limit ≤ mint_count_per_addr s info.sender →
      burn_and_mint s env info params msg = .error .MaxPerAddressLimitExceeded)
    ∧ (∀ (s : State) (env : Env) (info : MessageInfo) (params : FactoryParams)
        (msg : Cw721ReceiveMsg) (s' : State) (resp : Response),
      burn_and_mint s env info params msg = .ok (s', resp) →
      mintRecipients resp = [info.sender]
      ∧ mint_count_per_addr s' info.sender = mint_count_per_addr s info.sender + 1
      ∧ (msg.sender ≠ info.sender → mintRecipients resp ≠ [msg.sender])) := by
  refine ⟨?_, ?_⟩
  · intro s env info params msg h1 h2 h3
    exact burn_and_mint_cap_exceeded s env info params msg h1 h2 h3
  · intro s env info params msg s' resp hok
    obtain ⟨hs, hr⟩ := burn_and_mint_ok_shape _ _ _ _ _ _ _ hok
    refine ⟨hr, ?_, ?_⟩
    · rw [hs]
      simp [mintPost, mint_count_per_addr, lookupAddr_saveAddr_self]
    · intro hne hcontra
      rw [hr] at hcontra
      injection hcontra with hh1 hh2
      exact hne (hh1.symm)

/-- C9 witness: with the allow-listed collection "burncoll" as sender and
its count at the cap, burn-to-mint fails on the collection's own cap; with a
fresh table it succeeds, the item goes to "burncoll", and "burncoll" — not
the original owner "owner" — is credited. -/
theorem burn_to_mint_credits_collection_witness :
    burn_and_mint { exState with minter_addrs := [("burncoll", 1)] } ⟨1500⟩
        ⟨"burncoll", []⟩ exParams ⟨"owner", "42"⟩
      = .error .MaxPerAddressLimitExceeded
    ∧ (mintRecipients ⟨[.mintNft "sg721" "1" "burncoll" none
          (some "ipfs://base"), .burnNft "burncoll" "42"],
        [("action", "mint_sender"), ("sender", "burncoll"),
          ("recipient", "burncoll"), ("token_id", "1"), ("network_fee", "0"),
          ("mint_price", "1000"), ("seller_amount", "0")]⟩ = ["burncoll"]
      ∧ mint_count_per_addr
          { exState with
            total_mint_count := 1
            token_index := 2
            minter_addrs := [("burncoll", 1)] } "burncoll"
        = mint_count_per_addr exState "burncoll" + 1
      ∧ (("owner" : String) ≠ "burncoll" →
          mintRecipients ⟨[.mintNft "sg721" "1" "burncoll" none
              (some "ipfs://base"), .burnNft "burncoll" "42"],
            [("action", "mint_sender"), ("sender", "burncoll"),
              ("recipient", "burncoll"), ("token_id", "1"), ("network_fee", "0"),
              ("mint_price", "1000"), ("seller_amount", "0")]⟩ ≠ ["owner"])) :=
  ⟨burn_to_mint_credits_collection.1 { exState with minter_addrs := [("burncoll", 1)] }
      ⟨1500⟩ ⟨"burncoll", []⟩ exParams ⟨"owner", "42"⟩
      (by decide) (by decide) (by decide),
    burn_to_mint_credits_collection.2 exState ⟨1500⟩ ⟨"burncoll", []⟩ exParams
      ⟨"owner", "42"⟩
      { exState with
        total_mint_count := 1
        token_index := 2
        minter_addrs := [("burncoll", 1)] }
      ⟨[.mintNft "sg721" "1" "burncoll" none (some "ipfs://base"),
          .burnNft "burncoll" "42"],
        [("action", "mint_sender"), ("sender", "burncoll"),
          ("recipient", "burncoll"), ("token_id", "1"), ("network_fee", "0"),
          ("mint_price", "1000"), ("seller_amount", "0")]⟩
      (by decide)⟩

end OpenEdition
